import Mathlib

/-!
Verification of the `StockfishManager` engine-communication manager
(`src/stockfish-manager.js`, required by the Electron main process).

The manager is an event-driven class: all state transitions happen in
reaction to process stdout lines, process exit, or a timer firing, never
concurrently (single-threaded JS event loop).  We embed it shallowly:

* `ManagerState` mirrors the mutable instance fields
  (`stockfishProcess`, `isReady`, `pendingCommands`, `currentEvaluation`,
  `moveTimeout`); the process handle is modelled by a liveness flag.
* Each handler/method becomes a pure function `ManagerState → ManagerState × Effects`,
  where `Effects` records the observable side effects in order:
  lines written to the process stdin (`writes`), events emitted to
  subscribers via `EventEmitter` (`events`), and console log lines (`logs`).
* JavaScript string operations (`split(' ')`, `includes`, regex `match`)
  are embedded as executable functions on `List Char` with the exact
  JS semantics the source relies on.
* JS numbers that hold parsed integers become `Int`; a field that can be
  `null` becomes an `Option`.
-/

/-- Kind of an engine score: `'centipawn'` or `'mate'` in the source. -/
inductive EvalKind where
  | centipawn
  | mate
deriving Repr, DecidableEq

/-- The `currentEvaluation` object built by `handleInfoLine`:
`{type, value}` on creation, with `depth`/`nodes`/`time` assigned
(number or `null`, modelled by `Option Int`) before every emission. -/
structure Evaluation where
  type : EvalKind
  value : Int
  depth : Option Int := none
  nodes : Option Int := none
  time : Option Int := none
deriving Repr, DecidableEq

/-- Events the manager emits to subscribers; one constructor per
`this.emit(...)` call site in the source (`'ready'`, `'bestmove'`,
`'evaluation'`, `'error'`). -/
inductive Event where
  | ready
  | bestmove (move : Option String) (evaluation : Option Evaluation)
  | evaluation (e : Evaluation)
  | error (msg : String)
deriving Repr, DecidableEq

/-- Observable side effects of one handler invocation, in order:
`writes` are command strings written to the process stdin,
`events` are subscriber notifications, `logs` are `console.log` lines. -/
structure Effects where
  writes : List String
  events : List Event
  logs : List String
deriving Repr, DecidableEq

/-- No side effects. -/
def Effects.none : Effects := ⟨[], [], []⟩

/-- Sequential composition of effects. -/
def Effects.app (a b : Effects) : Effects :=
  ⟨a.writes ++ b.writes, a.events ++ b.events, a.logs ++ b.logs⟩

/-- The mutable instance state of a `StockfishManager`:
`stockfishProcess` (modelled as a liveness flag for the handle being
non-`null`), `isReady`, `pendingCommands`, `currentEvaluation`, and
`moveTimeout` (the armed cancellation delay in ms, `none` when no timer
is pending). -/
structure ManagerState where
  stockfishProcess : Bool
  isReady : Bool
  pendingCommands : List String
  currentEvaluation : Option Evaluation
  moveTimeout : Option Nat
deriving Repr, DecidableEq

/-- The state right after the constructor runs. -/
def initialState : ManagerState :=
  ⟨false, false, [], Option.none, Option.none⟩

/-! ## JS string primitives used by the source -/

/-- JS `s.split(' ')` on the character list: splits at every single
space, keeping empty fragments, never returning an empty list. -/
def splitSp : List Char → List (List Char)
  | [] => [[]]
  | c :: cs =>
    if c = ' ' then [] :: splitSp cs
    else
      match splitSp cs with
      | [] => [[c]]
      | t :: ts => (c :: t) :: ts

/-- JS `s.includes(pat)`: substring containment. -/
def containsSub (pat : List Char) : List Char → Bool
  | [] => pat.isPrefixOf ([] : List Char)
  | c :: cs => pat.isPrefixOf (c :: cs) || containsSub pat cs

/-- Greedy run of decimal digits at the head of the list, with the rest. -/
def takeDigits : List Char → List Char × List Char
  | [] => ([], [])
  | c :: cs =>
    if c.isDigit then
      let (d, r) := takeDigits cs
      (c :: d, r)
    else ([], c :: cs)

/-- Numeric value of a digit run (the `parseInt` of the capture group). -/
def natOfDigits (l : List Char) : Nat :=
  l.foldl (fun acc c => 10 * acc + (c.toNat - '0'.toNat)) 0

/-- Matches `-?\d+` (when `signed`) or `\d+` at the head of the list,
returning the parsed integer. -/
def matchNumAt (signed : Bool) (l : List Char) : Option Int :=
  match l with
  | '-' :: rest =>
    if signed then
      let d := (takeDigits rest).1
      if d = [] then Option.none else Option.some (-(Int.ofNat (natOfDigits d)))
    else Option.none
  | _ =>
    let d := (takeDigits l).1
    if d = [] then Option.none else Option.some (Int.ofNat (natOfDigits d))

/-- JS `line.match(/pat (-?\d+)/)` for a literal `pat` followed by a
space: finds the first position where the literal and a number both
match, returning the captured integer (`signed` selects whether the
regex accepts a leading minus). -/
def searchPat (pat : List Char) (signed : Bool) : List Char → Option Int
  | [] => Option.none
  | c :: cs =>
    if pat.isPrefixOf (c :: cs) then
      match matchNumAt signed (List.drop pat.length (c :: cs)) with
      | Option.some v => Option.some v
      | Option.none => searchPat pat signed cs
    else searchPat pat signed cs

/-- JS `line.startsWith(pat)`. -/
def jsStartsWith (l pat : List Char) : Bool := pat.isPrefixOf l

/-! ## Manager methods -/

/-- `sendCommand(command)`: logs and drops the command when no process
handle exists; queues it when the manager is not ready and the command
is neither handshake command; otherwise writes it to the process stdin. -/
def sendCommand (st : ManagerState) (command : String) : ManagerState × Effects :=
  if !st.stockfishProcess then
    (st, ⟨[], [], ["Stockfish process not started"]⟩)
  else if !st.isReady && command ≠ "uci" && command ≠ "isready" then
    ({ st with pendingCommands := st.pendingCommands ++ [command] }, Effects.none)
  else
    (st, ⟨[command], [], ["Sending to Stockfish: " ++ command]⟩)

/-- The `while (this.pendingCommands.length > 0)` loop of
`processPendingCommands`, with explicit fuel: each iteration shifts the
head of the queue and re-sends it through `sendCommand`. -/
def processPendingAux : Nat → ManagerState → ManagerState × Effects
  | 0, st => (st, Effects.none)
  | fuel + 1, st =>
    match st.pendingCommands with
    | [] => (st, Effects.none)
    | cmd :: rest =>
      let r1 := sendCommand { st with pendingCommands := rest } cmd
      let r2 := processPendingAux fuel r1.1
      (r2.1, Effects.app r1.2 r2.2)

/-- `processPendingCommands()`: drains the queue front-to-back.  The
queue length bounds the number of iterations whenever `sendCommand`
does not re-queue, which holds in every reachable call site (the method
is only invoked right after `isReady` is set to `true`). -/
def processPendingCommands (st : ManagerState) : ManagerState × Effects :=
  processPendingAux st.pendingCommands.length st

/-- The score-extraction prefix of `handleInfoLine`: the
`includes('cp ')` / `includes('mate ')` branches with their regex
matches.  Returns the fresh `{type, value}` pair when a score is
extracted, `none` otherwise (including when `includes` hits but the
regex fails, in which case the `else if` chain consults no further
branch). -/
def scoreOfLine (l : List Char) : Option (EvalKind × Int) :=
  if containsSub "cp ".data l then
    (searchPat "cp ".data true l).map (fun v => (EvalKind.centipawn, v))
  else if containsSub "mate ".data l then
    (searchPat "mate ".data true l).map (fun v => (EvalKind.mate, v))
  else
    Option.none

/-- The value `currentEvaluation` holds after the score branches of
`handleInfoLine` and before the depth/nodes extraction: a fresh
`{type, value}` object when the line carries a score, otherwise the
previous evaluation unchanged. -/
def scoreBase (st : ManagerState) (l : List Char) : Option Evaluation :=
  match scoreOfLine l with
  | Option.some (k, v) => Option.some ⟨k, v, Option.none, Option.none, Option.none⟩
  | Option.none => st.currentEvaluation

/-- `handleInfoLine(line)`: replaces `currentEvaluation` by a fresh
`{type, value}` object when the line carries a score; then, when an
evaluation exists and the line carries a depth or a nodes token,
overwrites its `depth`/`nodes`/`time` fields from this line alone
(`null` for each absent token) and emits it as an `'evaluation'` event. -/
def handleInfoLine (st : ManagerState) (line : String) : ManagerState × Effects :=
  let l := line.data
  let cur : Option Evaluation := scoreBase st l
  let depthMatch := searchPat "depth ".data false l
  let nodesMatch := searchPat "nodes ".data false l
  let timeMatch := searchPat "time ".data false l
  match cur with
  | Option.some ev =>
    if depthMatch.isSome || nodesMatch.isSome then
      let ev2 : Evaluation := { ev with depth := depthMatch, nodes := nodesMatch, time := timeMatch }
      ({ st with currentEvaluation := Option.some ev2 }, ⟨[], [Event.evaluation ev2], []⟩)
    else
      ({ st with currentEvaluation := Option.some ev }, Effects.none)
  | Option.none => ({ st with currentEvaluation := Option.none }, Effects.none)

/-- `handleBestMove(line)`: takes `line.split(' ')[1]` as the move
(`none` models JS `undefined` when the index is absent), clears any
pending move timeout, and emits a `'bestmove'` event carrying the move
and the current evaluation. -/
def handleBestMove (st : ManagerState) (line : String) : ManagerState × Effects :=
  let parts := splitSp line.data
  let bestMove := (parts.get? 1).map (fun l => String.mk l)
  ({ st with moveTimeout := Option.none },
   ⟨[], [Event.bestmove bestMove st.currentEvaluation], []⟩)

/-- The dispatch `if`/`else if` chain of the line loop in
`handleStockfishOutput` (`uciok`, `readyok`, `bestmove...`, `info...`,
anything else ignored).  The first `readyok` sets `isReady`, emits
`'ready'` and flushes the queue; later ones fall through the `if`. -/
def dispatchLine (st : ManagerState) (line : String) : ManagerState × Effects :=
  if line = "uciok" then
    sendCommand st "isready"
  else if line = "readyok" then
    if !st.isReady then
      let st1 := { st with isReady := true }
      let r := processPendingCommands st1
      (r.1, Effects.app ⟨[], [Event.ready], []⟩ r.2)
    else (st, Effects.none)
  else if jsStartsWith line.data "bestmove".data then
    handleBestMove st line
  else if jsStartsWith line.data "info".data then
    handleInfoLine st line
  else (st, Effects.none)

/-- One iteration of the line loop in `handleStockfishOutput`: logs the
raw line (`console.log('Stockfish:', line)`) and then dispatches it. -/
def handleOutputLine (st : ManagerState) (line : String) : ManagerState × Effects :=
  let r := dispatchLine st line
  (r.1, Effects.app ⟨[], [], ["Stockfish: " ++ line]⟩ r.2)

/-- The `'close'` listener registered in `initialize()`: logs the exit
code and clears `isReady`.  (The source registers no other behaviour
here: in particular it emits nothing to subscribers.) -/
def handleClose (st : ManagerState) (code : Int) : ManagerState × Effects :=
  ({ st with isReady := false },
   ⟨[], [], ["Stockfish process closed with code: " ++ toString code]⟩)

/-- `quit()`: when a process handle exists, sends `'quit'` through
`sendCommand`, then nulls the handle and clears `isReady`. -/
def quit (st : ManagerState) : ManagerState × Effects :=
  if st.stockfishProcess then
    let r := sendCommand st "quit"
    ({ r.1 with stockfishProcess := false, isReady := false }, r.2)
  else (st, Effects.none)

/-- The fixed grace period the source adds to the caller's time budget
when arming the move timeout (`timeLimit + 1000`). -/
def fixedGraceMs : Nat := 1000

/-- The synchronous body of `getBestMove(fen, timeLimit)` up to the
point where the promise is pending: rejects immediately (returning the
JS rejection message) when not ready; otherwise arms `moveTimeout` at
`timeLimit + 1000` ms and sends the position and `go movetime`
commands. -/
def getBestMoveStart (st : ManagerState) (fen : String) (timeLimit : Nat) :
    ManagerState × Effects × Option String :=
  if !st.isReady then
    (st, Effects.none, Option.some "Stockfish not ready")
  else
    let st1 := { st with moveTimeout := Option.some (timeLimit + fixedGraceMs) }
    let r1 := sendCommand st1 ("position fen " ++ fen)
    let r2 := sendCommand r1.1 ("go movetime " ++ toString timeLimit)
    (r2.1, Effects.app r1.2 r2.2, Option.none)

/-- The `setTimeout` callback armed by `getBestMove`: on expiry it sends
`'stop'` and rejects the pending promise with the timeout message. -/
def moveTimeoutFire (st : ManagerState) : ManagerState × Effects × String :=
  let r := sendCommand st "stop"
  (r.1, r.2, "Move calculation timeout")

/-- The synchronous body of `evaluatePosition(fen, depth)` up to the
point where the promise is pending: rejects immediately when not ready;
otherwise sends the position and `go depth` commands. -/
def evaluatePositionStart (st : ManagerState) (fen : String) (depth : Int) :
    ManagerState × Effects × Option String :=
  if !st.isReady then
    (st, Effects.none, Option.some "Stockfish not ready")
  else
    let r1 := sendCommand st ("position fen " ++ fen)
    let r2 := sendCommand r1.1 ("go depth " ++ toString depth)
    (r2.1, Effects.app r1.2 r2.2, Option.none)

/-- JS `x >= d` where `x` is a number or `null`: `null` coerces to 0. -/
def jsGeNullable (x : Option Int) (d : Int) : Bool :=
  match x with
  | Option.some v => decide (d ≤ v)
  | Option.none => decide (d ≤ 0)

/-- The `evaluationHandler` closure registered by `evaluatePosition`:
retains the incoming evaluation as `finalEvaluation` exactly when its
`depth` field satisfies `evaluation.depth >= depth` under JS coercion. -/
def evaluationHandler (targetDepth : Int) (finalEvaluation : Option Evaluation)
    (evaluation : Evaluation) : Option Evaluation :=
  if jsGeNullable evaluation.depth targetDepth then Option.some evaluation
  else finalEvaluation

/-- The value `evaluatePosition` resolves with when the `'bestmove'`
event fires after the given sequence of `'evaluation'` events: the
fold of `evaluationHandler` from the initial `null`. -/
def resolvedEvaluation (targetDepth : Int) (updates : List Evaluation) : Option Evaluation :=
  updates.foldl (evaluationHandler targetDepth) Option.none

/-! ## Helper lemmas -/

/-- `sendCommand` never touches the armed move timeout. -/
theorem sendCommand_moveTimeout (st : ManagerState) (c : String) :
    (sendCommand st c).1.moveTimeout = st.moveTimeout := by
  unfold sendCommand
  split
  · rfl
  · split <;> rfl

/-- Draining the queue while the manager is ready and the process is
alive writes every pending command once, in queue order, and empties
the queue. -/
theorem processPendingAux_ready (q : List String) (st : ManagerState)
    (hr : st.isReady = true) (hp : st.stockfishProcess = true)
    (hq : st.pendingCommands = q) :
    processPendingAux q.length st =
      ({ st with pendingCommands := [] },
       ⟨q, [], q.map (fun c => "Sending to Stockfish: " ++ c)⟩) := by
  induction q generalizing st with
  | nil =>
    cases st
    simp only at hq hr hp
    subst hq
    simp [processPendingAux, Effects.none]
  | cons c rest ih =>
    have h1 : sendCommand { st with pendingCommands := rest } c =
        ({ st with pendingCommands := rest },
         ⟨[c], [], ["Sending to Stockfish: " ++ c]⟩) := by
      unfold sendCommand
      simp [hp, hr]
    simp only [List.length_cons, processPendingAux, hq, h1,
      ih { st with pendingCommands := rest } hr hp rfl, Effects.app]
    simp

/-- Splitting a space-free fragment yields the single fragment. -/
theorem splitSp_no_space (a : List Char) (h : ' ' ∉ a) : splitSp a = [a] := by
  induction a with
  | nil => rfl
  | cons c cs ih =>
    have hc : ¬ c = ' ' := fun e => h (e ▸ List.mem_cons_self c cs)
    have hcs : ' ' ∉ cs := fun m => h (List.mem_cons_of_mem c m)
    simp [splitSp, hc, ih hcs]

/-- Splitting past a space-free fragment followed by a space peels the
fragment off the front. -/
theorem splitSp_append (a b : List Char) (h : ' ' ∉ a) :
    splitSp (a ++ ' ' :: b) = a :: splitSp b := by
  induction a with
  | nil => simp [splitSp]
  | cons c cs ih =>
    have hc : ¬ c = ' ' := fun e => h (e ▸ List.mem_cons_self c cs)
    have hcs : ' ' ∉ cs := fun m => h (List.mem_cons_of_mem c m)
    have he : (c :: cs) ++ ' ' :: b = c :: (cs ++ ' ' :: b) := rfl
    rw [he]
    simp only [splitSp]
    rw [if_neg hc, ih hcs]

/-- The last element of a cons, phrased with `Option.or`. -/
theorem getLast?_cons_or {α : Type} (a : α) (l : List α) :
    (a :: l).getLast? = Option.or l.getLast? (Option.some a) := by
  cases l with
  | nil => rfl
  | cons b t =>
    rw [List.getLast?_cons_cons]
    have : (b :: t).getLast?.isSome = true := List.getLast?_isSome.mpr (by simp)
    cases hx : (b :: t).getLast? with
    | none => rw [hx] at this; simp at this
    | some x => rfl

/-- The fold of the evaluation handler keeps the last qualifying
update, falling back to the accumulator. -/
theorem foldl_evaluationHandler (d : Int) (l : List Evaluation) (acc : Option Evaluation) :
    List.foldl (evaluationHandler d) acc l =
      Option.or ((l.filter (fun e => jsGeNullable e.depth d)).getLast?) acc := by
  induction l generalizing acc with
  | nil => cases acc <;> rfl
  | cons e l ih =>
    rw [List.foldl_cons, ih, List.filter_cons]
    by_cases h : jsGeNullable e.depth d
    · rw [if_pos h, getLast?_cons_or]
      have hstep : evaluationHandler d acc e = Option.some e := by
        unfold evaluationHandler; rw [if_pos h]
      rw [hstep]
      cases (List.filter (fun e => jsGeNullable e.depth d) l).getLast? <;> rfl
    · rw [if_neg h]
      have hstep : evaluationHandler d acc e = acc := by
        unfold evaluationHandler; rw [if_neg h]
      rw [hstep]

/-- `(String.mk l).data` projection. -/
theorem data_mk (l : List Char) : (String.mk l).data = l := rfl

/-- `processPendingCommands` on a ready manager with a live process:
writes the whole queue in order and empties it. -/
theorem processPendingCommands_ready (st : ManagerState)
    (hr : st.isReady = true) (hp : st.stockfishProcess = true) :
    processPendingCommands st =
      ({ st with pendingCommands := [] },
       ⟨st.pendingCommands, [],
        st.pendingCommands.map (fun c => "Sending to Stockfish: " ++ c)⟩) :=
  processPendingAux_ready st.pendingCommands st hr hp rfl

/-- Dispatching the first `readyok` line on a not-yet-ready manager
with a live process: sets readiness, emits `'ready'`, writes the queued
commands in order and empties the queue. -/
theorem dispatchLine_readyok_first (st : ManagerState)
    (hr : st.isReady = false) (hp : st.stockfishProcess = true) :
    dispatchLine st "readyok" =
      ({ st with isReady := true, pendingCommands := [] },
       ⟨st.pendingCommands, [Event.ready],
        st.pendingCommands.map (fun c => "Sending to Stockfish: " ++ c)⟩) := by
  have e1 : ¬ ("readyok" : String) = "uciok" := by decide
  unfold dispatchLine
  rw [if_neg e1, if_pos rfl, hr]
  simp only [Bool.not_false, reduceIte]
  rw [processPendingCommands_ready { st with isReady := true } rfl hp]
  simp [Effects.app]

/-- Dispatching a `readyok` line on an already-ready manager is a
no-op. -/
theorem dispatchLine_readyok_again (st : ManagerState) (h : st.isReady = true) :
    dispatchLine st "readyok" = (st, Effects.none) := by
  have e1 : ¬ ("readyok" : String) = "uciok" := by decide
  unfold dispatchLine
  rw [if_neg e1, if_pos rfl, h]
  simp

/-- The first `readyok` line on a not-yet-ready manager with a live
process: sets readiness, emits `'ready'`, writes the queued commands in
order and empties the queue (plus the raw-line diagnostic log). -/
theorem handleOutputLine_readyok_first (st : ManagerState)
    (hr : st.isReady = false) (hp : st.stockfishProcess = true) :
    handleOutputLine st "readyok" =
      ({ st with isReady := true, pendingCommands := [] },
       ⟨st.pendingCommands, [Event.ready],
        "Stockfish: readyok" ::
          st.pendingCommands.map (fun c => "Sending to Stockfish: " ++ c)⟩) := by
  unfold handleOutputLine
  rw [dispatchLine_readyok_first st hr hp]
  simp [Effects.app]

/-- A `readyok` line on an already-ready manager changes no state,
emits nothing and writes nothing (only the raw-line diagnostic log). -/
theorem handleOutputLine_readyok_again (st : ManagerState) (h : st.isReady = true) :
    handleOutputLine st "readyok" = (st, ⟨[], [], ["Stockfish: readyok"]⟩) := by
  unfold handleOutputLine
  rw [dispatchLine_readyok_again st h]
  simp [Effects.app, Effects.none]

/-! ## Claim theorems -/

/-- C1: while the process is live and the manager is not ready, any
command other than the two handshake commands is appended to the
pending queue and nothing is written to the process; the first
readiness-confirmation line writes every queued command exactly once,
in original arrival order, leaving the queue empty; and a
readiness-confirmation line on an already-ready manager writes nothing
(so flushed commands are never duplicated). -/
theorem queued_commands_flushed_once_in_order
    (st st2 : ManagerState) (cmd : String)
    (hp : st.stockfishProcess = true) (hr : st.isReady = false)
    (hc1 : cmd ≠ "uci") (hc2 : cmd ≠ "isready")
    (h2 : st2.isReady = true) :
    sendCommand st cmd =
      ({ st with pendingCommands := st.pendingCommands ++ [cmd] }, Effects.none) ∧
    handleOutputLine st "readyok" =
      ({ st with isReady := true, pendingCommands := [] },
       ⟨st.pendingCommands, [Event.ready],
        "Stockfish: readyok" ::
          st.pendingCommands.map (fun c => "Sending to Stockfish: " ++ c)⟩) ∧
    handleOutputLine st2 "readyok" = (st2, ⟨[], [], ["Stockfish: readyok"]⟩) := by
  refine ⟨?_, handleOutputLine_readyok_first st hr hp, handleOutputLine_readyok_again st2 h2⟩
  unfold sendCommand
  simp [hp, hr, hc1, hc2]

/-- C1 witness: a `position` command issued before readiness is queued
unsent; the first `readyok` flushes it; a later `readyok` is silent. -/
theorem queued_commands_flushed_once_in_order_witness :
    sendCommand ⟨true, false, [], Option.none, Option.none⟩ "position startpos" =
      (⟨true, false, ["position startpos"], Option.none, Option.none⟩, Effects.none) ∧
    handleOutputLine ⟨true, false, ["position startpos"], Option.none, Option.none⟩ "readyok" =
      (⟨true, true, [], Option.none, Option.none⟩,
       ⟨["position startpos"], [Event.ready],
        ["Stockfish: readyok", "Sending to Stockfish: position startpos"]⟩) ∧
    handleOutputLine ⟨true, true, [], Option.none, Option.none⟩ "readyok" =
      (⟨true, true, [], Option.none, Option.none⟩, ⟨[], [], ["Stockfish: readyok"]⟩) := by
  have h1 := queued_commands_flushed_once_in_order
    ⟨true, false, [], Option.none, Option.none⟩
    ⟨true, true, [], Option.none, Option.none⟩ "position startpos"
    rfl rfl (by decide) (by decide) rfl
  have h2 := queued_commands_flushed_once_in_order
    ⟨true, false, ["position startpos"], Option.none, Option.none⟩
    ⟨true, true, [], Option.none, Option.none⟩ "position startpos"
    rfl rfl (by decide) (by decide) rfl
  exact ⟨h1.1, h2.2.1, h2.2.2⟩

/-- C2: the first `readyok` sets readiness to true, emits the ready
notification exactly once and flushes the queue to empty; a `readyok`
received while already ready changes no state and emits nothing. -/
theorem readiness_transition_once (st st2 : ManagerState)
    (hr : st.isReady = false) (hp : st.stockfishProcess = true)
    (h2 : st2.isReady = true) :
    (handleOutputLine st "readyok").1.isReady = true ∧
    (handleOutputLine st "readyok").2.events = [Event.ready] ∧
    (handleOutputLine st "readyok").1.pendingCommands = [] ∧
    handleOutputLine st2 "readyok" = (st2, ⟨[], [], ["Stockfish: readyok"]⟩) := by
  rw [handleOutputLine_readyok_first st hr hp]
  exact ⟨rfl, rfl, rfl, handleOutputLine_readyok_again st2 h2⟩

/-- C2 witness: feeding `readyok` to a fresh spawned manager and then
again to the resulting ready manager. -/
theorem readiness_transition_once_witness :
    (handleOutputLine ⟨true, false, [], Option.none, Option.none⟩ "readyok").1.isReady = true ∧
    (handleOutputLine ⟨true, false, [], Option.none, Option.none⟩ "readyok").2.events = [Event.ready] ∧
    (handleOutputLine ⟨true, false, [], Option.none, Option.none⟩ "readyok").1.pendingCommands = [] ∧
    handleOutputLine ⟨true, true, [], Option.none, Option.none⟩ "readyok" =
      (⟨true, true, [], Option.none, Option.none⟩, ⟨[], [], ["Stockfish: readyok"]⟩) :=
  readiness_transition_once
    ⟨true, false, [], Option.none, Option.none⟩
    ⟨true, true, [], Option.none, Option.none⟩ rfl rfl rfl

/-- C5: both analysis operations invoked while the manager is not ready
reject immediately with the not-ready failure and produce no effects at
all — in particular no position-set and no search command is written. -/
theorem not_ready_rejects_no_commands (st : ManagerState) (fen : String)
    (timeLimit : Nat) (depth : Int) (hr : st.isReady = false) :
    getBestMoveStart st fen timeLimit =
      (st, Effects.none, Option.some "Stockfish not ready") ∧
    evaluatePositionStart st fen depth =
      (st, Effects.none, Option.some "Stockfish not ready") := by
  unfold getBestMoveStart evaluatePositionStart
  rw [hr]
  simp

/-- C5 witness: both operations on a freshly constructed manager. -/
theorem not_ready_rejects_no_commands_witness :
    getBestMoveStart initialState "startpos" 1000 =
      (initialState, Effects.none, Option.some "Stockfish not ready") ∧
    evaluatePositionStart initialState "startpos" 15 =
      (initialState, Effects.none, Option.some "Stockfish not ready") :=
  not_ready_rejects_no_commands initialState "startpos" 1000 15 rfl

/-- C7 counterexample: the `'close'` listener emits no subscriber
notification whatsoever (its `events` list is empty), although the
claim asserts a close notification carrying the exit code is emitted;
it does clear the readiness flag. -/
theorem process_close_no_notification_cex :
    (handleClose ⟨true, true, [], Option.none, Option.none⟩ 0).2.events = [] ∧
    (handleClose ⟨true, true, [], Option.none, Option.none⟩ 0).2.writes = [] ∧
    (handleClose ⟨true, true, [], Option.none, Option.none⟩ 0).1.isReady = false :=
  ⟨rfl, rfl, rfl⟩

/-- C7 amended: when the external process exits, the manager sets
ReadinessState to false and logs a diagnostic line carrying the exit
code to the console; it emits no subscriber-visible notification. -/
theorem process_close_sets_not_ready_logs_only (st : ManagerState) (code : Int) :
    handleClose st code =
      ({ st with isReady := false },
       ⟨[], [], ["Stockfish process closed with code: " ++ toString code]⟩) := rfl

/-- C8 counterexample: calling `quit()` with a live process while
ReadinessState is false writes nothing to the process input; the
termination command ends up on the pending queue instead (where it can
never be flushed, the handle having been released). -/
theorem quit_not_ready_not_written_cex :
    ¬ "quit" ∈ (quit ⟨true, false, [], Option.none, Option.none⟩).2.writes ∧
    (quit ⟨true, false, [], Option.none, Option.none⟩).2.writes = [] ∧
    (quit ⟨true, false, [], Option.none, Option.none⟩).1.pendingCommands = ["quit"] := by
  decide

/-- C8 amended: `quit()` with a live process always releases the handle
and sets ReadinessState to false; the termination command is written to
the process input when ReadinessState is true, but is appended to the
pending queue instead (never written) when ReadinessState is false. -/
theorem quit_releases_handle (st : ManagerState) (hp : st.stockfishProcess = true) :
    (st.isReady = true →
      quit st = ({ st with stockfishProcess := false, isReady := false },
                 ⟨["quit"], [], ["Sending to Stockfish: quit"]⟩)) ∧
    (st.isReady = false →
      quit st = ({ st with stockfishProcess := false, isReady := false,
                           pendingCommands := st.pendingCommands ++ ["quit"] },
                 Effects.none)) := by
  constructor <;> intro h <;> unfold quit sendCommand <;> rw [hp, h] <;> simp

/-- C8 witness: `quit()` on a ready manager and on a not-ready one. -/
theorem quit_releases_handle_witness :
    quit ⟨true, true, [], Option.none, Option.none⟩ =
      (⟨false, false, [], Option.none, Option.none⟩,
       ⟨["quit"], [], ["Sending to Stockfish: quit"]⟩) ∧
    quit ⟨true, false, [], Option.none, Option.none⟩ =
      (⟨false, false, ["quit"], Option.none, Option.none⟩, Effects.none) :=
  ⟨(quit_releases_handle ⟨true, true, [], Option.none, Option.none⟩ rfl).1 rfl,
   (quit_releases_handle ⟨true, false, [], Option.none, Option.none⟩ rfl).2 rfl⟩

/-- C3 counterexample: with an evaluation already populated by an
earlier score-bearing info-line, processing the scoreless line
`info depth 5 nodes 200` both mutates the current Evaluation (its
depth/nodes/time are overwritten) and emits an evaluation-update,
contradicting the claim that scoreless lines are inert in every state. -/
theorem scoreless_info_line_emits_cex :
    (handleInfoLine
        ⟨true, true, [],
         Option.some ⟨EvalKind.centipawn, 34, Option.some 12, Option.some 1000, Option.some 50⟩,
         Option.none⟩
        "info depth 5 nodes 200").2.events =
      [Event.evaluation ⟨EvalKind.centipawn, 34, Option.some 5, Option.some 200, Option.none⟩] ∧
    (handleInfoLine
        ⟨true, true, [],
         Option.some ⟨EvalKind.centipawn, 34, Option.some 12, Option.some 1000, Option.some 50⟩,
         Option.none⟩
        "info depth 5 nodes 200").1.currentEvaluation ≠
      Option.some ⟨EvalKind.centipawn, 34, Option.some 12, Option.some 1000, Option.some 50⟩ := by
  decide

/-- C3 amended: an info-line carrying no score information leaves the
current Evaluation unchanged and emits nothing provided the current
Evaluation is null or the line carries neither a depth token nor a
nodes token; when an Evaluation is already populated and the scoreless
line carries depth or nodes, the code instead overwrites the
depth/nodes/time fields in place and emits an evaluation-update. -/
theorem scoreless_info_line_noop (st : ManagerState) (line : String)
    (hs : scoreOfLine line.data = Option.none)
    (h : st.currentEvaluation = Option.none ∨
         (searchPat "depth ".data false line.data = Option.none ∧
          searchPat "nodes ".data false line.data = Option.none)) :
    handleInfoLine st line = (st, Effects.none) := by
  cases st with
  | mk p r q ce mt =>
    rcases h with h | ⟨hd, hn⟩
    · simp only at h
      subst h
      simp [handleInfoLine, scoreBase, hs]
    · simp only [handleInfoLine, scoreBase, hs, hd, hn]
      cases ce <;> simp

/-- C3 witness: `info depth 5 nodes 200` on a manager whose current
Evaluation is still null. -/
theorem scoreless_info_line_noop_witness :
    handleInfoLine initialState "info depth 5 nodes 200" = (initialState, Effects.none) :=
  scoreless_info_line_noop initialState "info depth 5 nodes 200" (by decide) (Or.inl rfl)

/-- C4: a best-move request accepted while ready arms the cancellation
timer at the requested time budget plus the fixed 1000 ms grace period
and does not resolve immediately; when that timer fires, exactly one
abort command `stop` is written and the request rejects with the
timeout failure message. -/
theorem best_move_timeout_stop_once (st st2 : ManagerState) (fen : String)
    (timeLimit : Nat) (hr : st.isReady = true)
    (h2r : st2.isReady = true) (h2p : st2.stockfishProcess = true) :
    (getBestMoveStart st fen timeLimit).1.moveTimeout =
      Option.some (timeLimit + fixedGraceMs) ∧
    (getBestMoveStart st fen timeLimit).2.2 = Option.none ∧
    moveTimeoutFire st2 =
      (st2, ⟨["stop"], [], ["Sending to Stockfish: stop"]⟩,
       "Move calculation timeout") := by
  refine ⟨?_, ?_, ?_⟩
  · unfold getBestMoveStart
    rw [hr]
    simp [sendCommand_moveTimeout]
  · unfold getBestMoveStart
    rw [hr]
    simp
  · unfold moveTimeoutFire sendCommand
    rw [h2p, h2r]
    simp

/-- C4 witness: a ready manager with a 1000 ms budget arms the timer at
2000 ms, and the timer callback writes one `stop` and rejects. -/
theorem best_move_timeout_stop_once_witness :
    (getBestMoveStart ⟨true, true, [], Option.none, Option.none⟩ "startpos" 1000).1.moveTimeout =
      Option.some (1000 + fixedGraceMs) ∧
    (getBestMoveStart ⟨true, true, [], Option.none, Option.none⟩ "startpos" 1000).2.2 =
      Option.none ∧
    moveTimeoutFire ⟨true, true, [], Option.none, Option.some 2000⟩ =
      (⟨true, true, [], Option.none, Option.some 2000⟩,
       ⟨["stop"], [], ["Sending to Stockfish: stop"]⟩,
       "Move calculation timeout") := by
  have h1 := best_move_timeout_stop_once
    ⟨true, true, [], Option.none, Option.none⟩
    ⟨true, true, [], Option.none, Option.some 2000⟩ "startpos" 1000 rfl rfl rfl
  exact ⟨h1.1, h1.2.1, h1.2.2⟩

/-- C6: for a best-move line whose move is the first space-delimited
token after the `bestmove ` marker, `handleBestMove` extracts exactly
that token, cancels any pending cancellation timer, and emits one
bestmove event carrying the move together with whatever Evaluation was
last recorded (null when no score-bearing info-line preceded it). -/
theorem bestmove_extracts_first_token (st : ManagerState) (m rest : List Char)
    (_hm : m ≠ []) (hsp : ' ' ∉ m)
    (hr : rest = [] ∨ ∃ r : List Char, rest = ' ' :: r) :
    handleBestMove st (String.mk ("bestmove ".data ++ (m ++ rest))) =
      ({ st with moveTimeout := Option.none },
       ⟨[], [Event.bestmove (Option.some (String.mk m)) st.currentEvaluation], []⟩) := by
  have hb : ' ' ∉ "bestmove".data := by decide
  have he : "bestmove ".data ++ (m ++ rest) = "bestmove".data ++ ' ' :: (m ++ rest) := rfl
  unfold handleBestMove
  rw [data_mk, he]
  rcases hr with h | ⟨r, h⟩
  · subst h
    rw [List.append_nil, splitSp_append "bestmove".data m hb, splitSp_no_space m hsp]
    rfl
  · subst h
    rw [splitSp_append "bestmove".data (m ++ ' ' :: r) hb, splitSp_append m r hsp]
    rfl

/-- C6 witness: the line `bestmove e2e4 ponder e7e5` with an armed
timer and no recorded evaluation yields move `e2e4`, a cleared timer
and a null evaluation in the emitted event. -/
theorem bestmove_extracts_first_token_witness :
    handleBestMove ⟨true, true, [], Option.none, Option.some 2000⟩
        "bestmove e2e4 ponder e7e5" =
      (⟨true, true, [], Option.none, Option.none⟩,
       ⟨[], [Event.bestmove (Option.some "e2e4") Option.none], []⟩) :=
  bestmove_extracts_first_token ⟨true, true, [], Option.none, Option.some 2000⟩
    "e2e4".data (' ' :: "ponder e7e5".data) (by decide) (by decide)
    (Or.inr ⟨"ponder e7e5".data, rfl⟩)

/-- C9: an evaluation-update is emitted exactly when a score base
exists and the line carries a depth or nodes token; in that case the
evaluation's depth, nodes and time fields are all overwritten from the
triggering line alone — each null when the corresponding token is
absent — and the emitted object is precisely the evaluation stored as
the manager's current Evaluation (the shared mutable slot). -/
theorem evaluation_update_overwrites_fields (st : ManagerState) (line : String)
    (ev : Evaluation) (hb : scoreBase st line.data = Option.some ev)
    (hdn : (searchPat "depth ".data false line.data).isSome = true ∨
           (searchPat "nodes ".data false line.data).isSome = true) :
    handleInfoLine st line =
      ({ st with currentEvaluation :=
           Option.some ({ ev with depth := searchPat "depth ".data false line.data,
                                  nodes := searchPat "nodes ".data false line.data,
                                  time := searchPat "time ".data false line.data }) },
       ⟨[], [Event.evaluation
           ({ ev with depth := searchPat "depth ".data false line.data,
                      nodes := searchPat "nodes ".data false line.data,
                      time := searchPat "time ".data false line.data })], []⟩) := by
  have hc : ((searchPat "depth ".data false line.data).isSome ||
             (searchPat "nodes ".data false line.data).isSome) = true := by
    rcases hdn with h | h <;> simp [h]
  simp only [handleInfoLine, hb, hc, if_true]

/-- C9 witness: the line `info depth 12 score cp 34 nodes 1000 time 50`
over a fresh evaluation populates all three fields and emits the stored
object; the prior depth/nodes/time cannot leak in since the score
creates the object fresh and the fields come from this line alone. -/
theorem evaluation_update_overwrites_fields_witness :
    handleInfoLine initialState "info depth 12 score cp 34 nodes 1000 time 50" =
      ({ initialState with currentEvaluation := Option.some ⟨EvalKind.centipawn, 34, Option.some 12, Option.some 1000, Option.some 50⟩ },
       ⟨[], [Event.evaluation
           ⟨EvalKind.centipawn, 34, Option.some 12, Option.some 1000, Option.some 50⟩], []⟩) := by
  have h := evaluation_update_overwrites_fields initialState
    "info depth 12 score cp 34 nodes 1000 time 50"
    ⟨EvalKind.centipawn, 34, Option.none, Option.none, Option.none⟩
    (by decide) (Or.inl (by decide))
  rw [h]
  decide

/-- C10: under a target depth of at least 1, an update whose depth
field is null never qualifies (the handler leaves its retained value
unchanged); the resolved Evaluation is the last qualifying update of
the stream, and whenever it is non-null its depth is a number that is
at least the target depth. -/
theorem evaluate_retains_last_qualifying (targetDepth : Int)
    (updates : List Evaluation) (acc : Option Evaluation) (ev0 ev1 : Evaluation)
    (hd : 1 ≤ targetDepth) (h0 : ev0.depth = Option.none)
    (hres : resolvedEvaluation targetDepth updates = Option.some ev1) :
    evaluationHandler targetDepth acc ev0 = acc ∧
    resolvedEvaluation targetDepth updates =
      (updates.filter (fun e => jsGeNullable e.depth targetDepth)).getLast? ∧
    ev1.depth ≠ Option.none ∧ jsGeNullable ev1.depth targetDepth = true := by
  have hnone : jsGeNullable Option.none targetDepth = false := by
    unfold jsGeNullable
    simp
    omega
  have h2 : resolvedEvaluation targetDepth updates =
      (updates.filter (fun e => jsGeNullable e.depth targetDepth)).getLast? := by
    unfold resolvedEvaluation
    rw [foldl_evaluationHandler]
    cases (updates.filter (fun e => jsGeNullable e.depth targetDepth)).getLast? <;> rfl
  have hmem : ev1 ∈ updates.filter (fun e => jsGeNullable e.depth targetDepth) :=
    List.mem_of_mem_getLast? (h2 ▸ hres)
  have hq : jsGeNullable ev1.depth targetDepth = true := by
    have hf := List.of_mem_filter hmem
    simpa using hf
  refine ⟨?_, h2, ?_, hq⟩
  · unfold evaluationHandler
    rw [h0, hnone]
    simp
  · intro hc
    rw [hc, hnone] at hq
    exact Bool.false_ne_true hq

/-- C10 witness: with target depth 15, a null-depth update does not
displace the retained value, and over a stream with qualifying updates
at depths 15 and 16 the resolved evaluation is the last one (depth 16,
which is ≥ 15). -/
theorem evaluate_retains_last_qualifying_witness :
    evaluationHandler 15
        (Option.some ⟨EvalKind.centipawn, 1, Option.some 15, Option.none, Option.none⟩)
        ⟨EvalKind.centipawn, 2, Option.none, Option.some 500, Option.none⟩ =
      Option.some ⟨EvalKind.centipawn, 1, Option.some 15, Option.none, Option.none⟩ ∧
    resolvedEvaluation 15
        [⟨EvalKind.centipawn, 1, Option.some 15, Option.none, Option.none⟩,
         ⟨EvalKind.centipawn, 2, Option.none, Option.some 500, Option.none⟩,
         ⟨EvalKind.centipawn, 3, Option.some 16, Option.none, Option.none⟩] =
      ([⟨EvalKind.centipawn, 1, Option.some 15, Option.none, Option.none⟩,
        ⟨EvalKind.centipawn, 2, Option.none, Option.some 500, Option.none⟩,
        ⟨EvalKind.centipawn, 3, Option.some 16, Option.none, Option.none⟩].filter
          (fun e => jsGeNullable e.depth 15)).getLast? ∧
    (⟨EvalKind.centipawn, 3, Option.some 16, Option.none, Option.none⟩ : Evaluation).depth ≠
      Option.none ∧
    jsGeNullable
      (⟨EvalKind.centipawn, 3, Option.some 16, Option.none, Option.none⟩ : Evaluation).depth
      15 = true :=
  evaluate_retains_last_qualifying 15
    [⟨EvalKind.centipawn, 1, Option.some 15, Option.none, Option.none⟩,
     ⟨EvalKind.centipawn, 2, Option.none, Option.some 500, Option.none⟩,
     ⟨EvalKind.centipawn, 3, Option.some 16, Option.none, Option.none⟩]
    (Option.some ⟨EvalKind.centipawn, 1, Option.some 15, Option.none, Option.none⟩)
    ⟨EvalKind.centipawn, 2, Option.none, Option.some 500, Option.none⟩
    ⟨EvalKind.centipawn, 3, Option.some 16, Option.none, Option.none⟩
    (by decide) rfl (by decide)
